import Mathlib

/-!
Verification development for the personalized YouTube-search repository
(`src/search_engine.py`, `src/user_preferences.py`).

The Python code is shallowly embedded: every definition below is translated
from the source functions named in its doc comment.  Python `dict` video
records become a structure whose fields default exactly like the
`video.get(key, default)` calls in the source; Python integers become `Int`;
collaborator calls that may raise (the YouTube client, the sqlite layer)
become `Except`-valued parameters; wall-clock datetime parsing is abstracted
as an oracle `ageOf : String → Option ℚ` giving the age in days of a
`published_at` string (`none` = empty or unparseable, mirroring the
`except` fallbacks in `_is_video_too_old`).
-/

/-- A video record as produced by the YouTube client and consumed with
`video.get(key, default)` in `search_engine.py` / `user_preferences.py`.
Field defaults are exactly the `get` defaults used by the source. -/
structure Video where
  video_id : String := ""
  title : String := ""
  channel : String := ""
  description : String := ""
  published_at : String := ""
  duration : String := "PT0M0S"
  view_count : Int := 0
  like_count : Int := 0
  category_id : String := ""
deriving DecidableEq, Repr

/-- The preference mapping of `UserPreferenceEngine`, one field per
recognized key (`user_preferences.py`, `default_preferences`). -/
structure Prefs where
  preferred_channels : List String
  preferred_categories : List String
  min_duration : Int
  max_duration : Int
  preferred_languages : List String
  exclude_channels : List String
  min_views : Int
  max_age_days : Int
  preferred_keywords : List String
  disliked_keywords : List String
deriving DecidableEq, Repr

/-- `self.default_preferences` in `UserPreferenceEngine.__init__`. -/
def defaultPreferences : Prefs where
  preferred_channels := []
  preferred_categories := []
  min_duration := 0
  max_duration := 7200
  preferred_languages := ["en"]
  exclude_channels := []
  min_views := 0
  max_age_days := 365
  preferred_keywords := []
  disliked_keywords := []

/-- Leading-digit-run to `Nat`: helper for the Python `int()` model. -/
def digitsToNat (cs : List Char) : Option Nat :=
  match cs with
  | [] => none
  | _ =>
    if cs.all Char.isDigit then
      some (cs.foldl (fun n c => n * 10 + (c.toNat - 48)) 0)
    else none

/-- Python `int(s)` on a string: strip surrounding whitespace, optional
sign, then a nonempty run of decimal digits; anything else raises
(`none` here).  (Underscore digit separators are not modelled; no input
in this code base produces them.) -/
def pyInt (s : String) : Option Int :=
  let cs := ((s.toList.dropWhile Char.isWhitespace).reverse.dropWhile
      Char.isWhitespace).reverse
  match cs with
  | '-' :: rest => (digitsToNat rest).map (fun n => -(n : Int))
  | '+' :: rest => (digitsToNat rest).map (fun n => (n : Int))
  | _ => (digitsToNat cs).map (fun n => (n : Int))

/-- Python `s.split(c, 1)` preceded by the `if c in s` check: `some
(before, after)` at the first occurrence of `c`, `none` when `c` does not
occur. -/
def splitFirst (c : Char) : List Char → Option (List Char × List Char)
  | [] => none
  | x :: xs =>
    if x = c then some ([], xs)
    else (splitFirst c xs).map (fun p => (x :: p.1, p.2))

/-- Python `duration_str.startswith('PT')`. -/
def startsWithPT (s : String) : Bool :=
  List.isPrefixOf ['P', 'T'] s.toList

/-- The body of `_parse_duration` inside its `try`: `none` is a raised
exception (a failed `int()` conversion), `some n` a normal return.
Identical code appears in `search_engine.py` and `user_preferences.py`. -/
def parseDurationCore (s : String) : Option Int :=
  if startsWithPT s then do
    let rest := s.toList.drop 2
    let (hTotal, rest1) ←
      match splitFirst 'H' rest with
      | some (h, r) => (pyInt (String.mk h)).map (fun n => (n * 3600, r))
      | none => some (0, rest)
    let (hmTotal, rest2) ←
      match splitFirst 'M' rest1 with
      | some (m, r) => (pyInt (String.mk m)).map (fun n => (hTotal + n * 60, r))
      | none => some (hTotal, rest1)
    match splitFirst 'S' rest2 with
    | some (sec, _) => (pyInt (String.mk sec)).map (fun n => hmTotal + n)
    | none => some hmTotal
  else
    some 0

/-- `_parse_duration`: the surrounding `try/except` maps any failure to 0
(fail closed, never a partial sum). -/
def parse_duration (s : String) : Int :=
  (parseDurationCore s).getD 0

example : parse_duration "PT5M30S" = 330 := by decide
example : parse_duration "PT1H30M" = 5400 := by decide
example : parse_duration "PT45S" = 45 := by decide
example : parse_duration "PT2H" = 7200 := by decide
example : parse_duration "invalid" = 0 := by decide
example : parse_duration "" = 0 := by decide
example : parse_duration "PT1H2xM3S" = 0 := by decide

/-- Contiguous-sublist test on `List Char`: Python `needle in hay` for
strings. -/
def listContainsSub (hay needle : List Char) : Bool :=
  match hay with
  | [] => needle.isEmpty
  | _ :: t => List.isPrefixOf needle hay || listContainsSub t needle

/-- Python `needle in hay` for strings (substring containment). -/
def strContains (hay needle : String) : Bool :=
  listContainsSub hay.toList needle.toList

/-- Accumulator loop behind `splitWs`; `cur` is the current token,
reversed. -/
def splitWsAux (cur : List Char) : List Char → List String
  | [] => if cur.isEmpty then [] else [String.mk cur.reverse]
  | c :: cs =>
    if c.isWhitespace then
      if cur.isEmpty then splitWsAux [] cs
      else String.mk cur.reverse :: splitWsAux [] cs
    else splitWsAux (c :: cur) cs

/-- Python `s.split()`: whitespace tokenization dropping empty tokens. -/
def splitWs (s : String) : List String :=
  splitWsAux [] s.toList

/-- Python `s.lower()` (ASCII case fold, as in `Char.toLower`). -/
def lowerStr (s : String) : String :=
  String.mk (s.toList.map Char.toLower)

/-- The character set of `word.strip('.,!?()[]')`. -/
def punctChars : List Char := ['.', ',', '!', '?', '(', ')', '[', ']']

/-- Python `word.strip('.,!?()[]')`: drop those characters from both
ends. -/
def stripPunct (w : String) : String :=
  String.mk
    (((w.toList.dropWhile punctChars.contains).reverse.dropWhile
      punctChars.contains).reverse)

example : stripPunct "(dog)." = "dog" := by decide
example : splitWs "  a bb  ccc " = ["a", "bb", "ccc"] := by decide
example : strContains "hello world" "lo wo" = true := by decide
example : strContains "hello" "low" = false := by decide

/-- `_is_video_too_old` (`search_engine.py`): age of `published_at` in
days, via the oracle `ageOf` (`none` models the empty string and any
`datetime.fromisoformat` failure, both of which return `False` there);
otherwise `(now - published_date) > timedelta(days=max_age_days)`. -/
def isVideoTooOld (ageOf : String → Option ℚ) (published_at : String)
    (max_age_days : Int) : Bool :=
  match ageOf published_at with
  | none => false
  | some age => age > (max_age_days : ℚ)

/-- The disliked-keyword test of `_apply_preference_filters`:
`any(keyword.lower() in title_lower or keyword.lower() in
description_lower for keyword in disliked_keywords)`. -/
def hasDislikedKeyword (disliked : List String) (title description : String) :
    Bool :=
  disliked.any (fun kw =>
    strContains (lowerStr title) (lowerStr kw)
    || strContains (lowerStr description) (lowerStr kw))

/-- `_apply_preference_filters` (`search_engine.py`): the `for` loop with
its five `continue` guards, modelled by structural recursion (each guard
skips the video, otherwise it is appended; order preserved, inputs
untouched). -/
def applyPreferenceFilters (ageOf : String → Option ℚ) :
    List Video → Prefs → List Video
  | [], _ => []
  | v :: rest, preferences =>
    if v.channel ∈ preferences.exclude_channels then
      applyPreferenceFilters ageOf rest preferences
    else if parse_duration v.duration < preferences.min_duration
        ∨ parse_duration v.duration > preferences.max_duration then
      applyPreferenceFilters ageOf rest preferences
    else if v.view_count < preferences.min_views then
      applyPreferenceFilters ageOf rest preferences
    else if isVideoTooOld ageOf v.published_at preferences.max_age_days then
      applyPreferenceFilters ageOf rest preferences
    else if hasDislikedKeyword preferences.disliked_keywords v.title
        v.description then
      applyPreferenceFilters ageOf rest preferences
    else
      v :: applyPreferenceFilters ageOf rest preferences

/-- One insertion step of a stable descending sort: an element entering
from the left of the input stays before every element of equal score.
This is the behaviour of Python `list.sort(key=..., reverse=True)`
(a stable sort) in `_rank_by_preferences`. -/
def insertScored (score : Video → ℚ) (v : Video) : List Video → List Video
  | [] => [v]
  | h :: t =>
    if score v < score h then h :: insertScored score v t
    else v :: h :: t

/-- Stable descending sort by score (insertion sort, processing the input
right to left so earlier elements are inserted last and land before their
equals). -/
def sortByScoreDesc (score : Video → ℚ) : List Video → List Video
  | [] => []
  | v :: rest => insertScored score v (sortByScoreDesc score rest)

/-- `_rank_by_preferences` (`search_engine.py`): score every video with
`_calculate_preference_score`, stable-sort descending by score, return the
videos.  The score function is a parameter: `_calculate_preference_score`
computes an IEEE double (including a `log10` term) from the video, the
preferences and the query; its values enter the ranking only through the
order on scores, embedded here as `ℚ`. -/
def rankByPreferences (scoreFn : Video → Prefs → String → ℚ)
    (videos : List Video) (preferences : Prefs) (query : String) :
    List Video :=
  sortByScoreDesc (fun v => scoreFn v preferences query) videos

/-- The actions that trigger any learning
(`record_interaction`: `if action in ['clicked', 'liked', 'watched']`). -/
def learningActions : List String := ["clicked", "liked", "watched"]

/-- Channel-affinity rule of `_learn_from_interaction`
(`user_preferences.py`): append an unseen non-empty channel, then keep the
most recent 50 (`[-50:]`) when the list exceeds 50. -/
def learnChannelRule (video : Video) (action : String) (p : Prefs) : Prefs :=
  if video.channel ≠ "" ∧ action ∈ ["clicked", "liked", "watched"] then
    if video.channel ∉ p.preferred_channels then
      let pc := p.preferred_channels ++ [video.channel]
      let pc := if pc.length > 50 then pc.drop (pc.length - 50) else pc
      { p with preferred_channels := pc }
    else p
  else p

/-- Category-affinity rule of `_learn_from_interaction`. -/
def learnCategoryRule (video : Video) (action : String) (p : Prefs) : Prefs :=
  if video.category_id ≠ "" ∧ action ∈ ["clicked", "liked"] then
    if video.category_id ∉ p.preferred_categories then
      { p with preferred_categories :=
          p.preferred_categories ++ [video.category_id] }
    else p
  else p

/-- Duration-drift rule of `_learn_from_interaction`: both comparisons
read the pre-update `current_min` / `current_max`. -/
def learnDurationRule (video : Video) (action : String) (p : Prefs) : Prefs :=
  let duration := parse_duration video.duration
  if duration > 0 ∧ action ∈ ["watched", "liked"] then
    let current_min := p.min_duration
    let current_max := p.max_duration
    let p := if duration < current_min then
        { p with min_duration := max 0 (current_min - 60) } else p
    let p := if duration > current_max then
        { p with max_duration := min 14400 (current_max + 300) } else p
    p
  else p

/-- The stoplist `common_words` of `_learn_from_interaction`. -/
def commonWords : List String :=
  ["this", "that", "with", "have", "will", "from", "they", "know",
   "want", "been", "good", "much", "some", "time", "very", "when",
   "come", "here", "just", "like", "long", "make", "many", "over",
   "such", "take", "than", "them", "well", "were"]

/-- One iteration of the keyword loop: append `word` when it is not a
stop word, not already preferred, and the list is still below 100. -/
def addKeyword (kws : List String) (word : String) : List String :=
  if word ∉ commonWords ∧ word ∉ kws ∧ kws.length < 100 then kws ++ [word]
  else kws

/-- The token list of the keyword rule: `title` is lowercased before
splitting; the `len(word) > 3` test runs on the raw whitespace token,
BEFORE `word.strip('.,!?()[]')` is applied (list-comprehension order in
the source). -/
def keywordTokens (title : String) : List String :=
  ((splitWs (lowerStr title)).filter (fun w => w.length > 3)).map stripPunct

/-- Keyword rule of `_learn_from_interaction`. -/
def learnKeywordRule (video : Video) (action : String) (p : Prefs) : Prefs :=
  if lowerStr video.title ≠ "" ∧ action ∈ ["clicked", "liked"] then
    { p with preferred_keywords :=
        (keywordTokens video.title).foldl addKeyword p.preferred_keywords }
  else p

/-- `_learn_from_interaction` (`user_preferences.py`): the four rules run
in source order on the same mutable preference mapping. -/
def learnFromInteraction (p : Prefs) (video : Video) (action : String) :
    Prefs :=
  learnKeywordRule video action
    (learnDurationRule video action
      (learnCategoryRule video action
        (learnChannelRule video action p)))

/-- The collaborators of `PersonalizedSearchEngine` and the sqlite layer
behind `UserPreferenceEngine`, one call site each.  `Except ε` models a
Python call that may raise. -/
structure EngineCfg (ε : Type) where
  /-- `youtube_client.search_videos(query, max_results, order)`. -/
  sourceFn : String → Nat → Except ε (List Video)
  /-- The sqlite read behind `get_preferences`, already overlaid on the
  defaults (`error` = the sqlite layer raised). -/
  prefsDb : Except ε Prefs
  /-- The sqlite insert behind `record_search`. -/
  searchLogDb : String → Nat → Except ε Unit
  /-- `_calculate_preference_score` (see `rankByPreferences`). -/
  scoreFn : Video → Prefs → String → ℚ
  /-- `published_at` age oracle (see `isVideoTooOld`). -/
  ageOf : String → Option ℚ

/-- `UserPreferenceEngine.get_preferences`: its `try/except` returns
`self.default_preferences.copy()` when the sqlite layer raises — it never
raises itself. -/
def getPreferencesImpl {ε : Type} (cfg : EngineCfg ε) : Prefs :=
  match cfg.prefsDb with
  | .ok p => p
  | .error _ => defaultPreferences

/-- `UserPreferenceEngine.record_search`: its `try/except` logs and
returns — it never raises. -/
def recordSearchImpl {ε : Type} (cfg : EngineCfg ε) (query : String)
    (results_count : Nat) : Except ε Unit :=
  match cfg.searchLogDb query results_count with
  | .ok _ => .ok ()
  | .error _ => .ok ()

/-- `PersonalizedSearchEngine.search`: fetch `min(2*max_results, 50)` raw
candidates, filter, rank, truncate, log; its `try/except` logs and
re-raises (`raise`), so a raising step aborts with the same exception. -/
def searchE {ε : Type} (cfg : EngineCfg ε) (query : String)
    (max_results : Nat) : Except ε (List Video) := do
  let raw ← cfg.sourceFn query (min (2 * max_results) 50)
  let preferences := getPreferencesImpl cfg
  let filtered := applyPreferenceFilters cfg.ageOf raw preferences
  let ranked := rankByPreferences cfg.scoreFn filtered preferences query
  let final := ranked.take max_results
  let _ ← recordSearchImpl cfg query final.length
  pure final

/-- The fixed query list of `get_trending_personalized`. -/
def trendingQueries : List String :=
  ["trending today", "popular videos", "viral videos", "latest trending"]

/-- The accumulation loop of `get_trending_personalized`: no per-query
handler, so the first raising query aborts the whole loop with its
exception. -/
def runQueries {ε : Type} (f : String → Except ε (List Video)) :
    List String → Except ε (List Video)
  | [] => .ok []
  | q :: qs =>
    match f q with
    | .error e => .error e
    | .ok r =>
      match runQueries f qs with
      | .error e => .error e
      | .ok rest => .ok (r ++ rest)

/-- The `seen_ids` de-duplication loop shared by
`get_trending_personalized` and `get_recommendations`. -/
def dedupeById : List Video → List String → List Video
  | [], _ => []
  | v :: vs, seen =>
    if v.video_id ∈ seen then dedupeById vs seen
    else v :: dedupeById vs (v.video_id :: seen)

/-- `get_trending_personalized` (`search_engine.py`): issue the four fixed
queries at `max_results // len(trending_queries)` each, de-duplicate,
truncate; the single outer `try/except` returns `[]` on any exception. -/
def getTrending {ε : Type} (cfg : EngineCfg ε) (max_results : Nat) :
    List Video :=
  match runQueries
      (fun q => searchE cfg q (max_results / trendingQueries.length))
      trendingQueries with
  | .ok all => (dedupeById all []).take max_results
  | .error _ => []

/-- The query list built by `get_recommendations`: up to 10 preferred
keywords, up to 5 preferred channels as `channel:`-scoped terms, or the
four generic topics when both are empty. -/
def recQueries (preferences : Prefs) : List String :=
  let qs := preferences.preferred_keywords.take 10
    ++ (preferences.preferred_channels.take 5).map
        (fun c => "channel:" ++ c)
  if qs.isEmpty then ["educational", "entertainment", "technology", "music"]
  else qs

/-- `results_per_query = max(1, max_results // len(queries))`. -/
def recPerQuery (preferences : Prefs) (max_results : Nat) : Nat :=
  max 1 (max_results / (recQueries preferences).length)

/-- The per-query loop of `get_recommendations`: each query has its own
`try/except ... continue`, so a raising query is skipped. -/
def collectLoop {ε : Type} (f : String → Except ε (List Video))
    (acc : List Video) : List String → List Video
  | [] => acc
  | q :: qs =>
    match f q with
    | .ok r => collectLoop f (acc ++ r) qs
    | .error _ => collectLoop f acc qs

/-- `get_recommendations` (`search_engine.py`).  `get_preferences` never
raises (it falls back to defaults), the per-query failures are skipped,
and nothing after the loop can raise, so the outer `try/except` is
inert. -/
def getRecommendations {ε : Type} (cfg : EngineCfg ε) (max_results : Nat) :
    List Video :=
  let preferences := getPreferencesImpl cfg
  let all := collectLoop
    (fun q => searchE cfg q (recPerQuery preferences max_results)) []
    (recQueries preferences)
  (dedupeById all []).take max_results

/-- `_learn_from_interaction` as a call: reads preferences (never raises),
computes the update, writes it back with `update_preferences` (which
re-raises sqlite failures), and its own `try/except` swallows
everything. -/
def learnCallE {ε : Type} (updateDb : Except ε Unit) : Except ε Unit :=
  match updateDb with
  | .ok _ => .ok ()
  | .error _ => .ok ()

/-- `UserPreferenceEngine.record_interaction`: insert the interaction row
(`interactionDb`), then learn for the three learning actions; the
`try/except` logs and returns, never re-raising. -/
def recordInteractionE {ε : Type} (interactionDb : Except ε Unit)
    (updateDb : Except ε Unit) (action : String) : Except ε Unit :=
  match (do
      let _ ← interactionDb
      if action ∈ learningActions then learnCallE updateDb
      else pure ()) with
  | .ok _ => .ok ()
  | .error _ => .ok ()

/-- C2: `_parse_duration` is total (it is a Lean function into `Int`),
returns the five documented values, returns 0 for any string without the
`PT` prefix, and fails closed to 0 (never a partial sum) on a component
parse failure, e.g. `"PT1H2xM3S"`. -/
theorem parse_duration_spec :
    parse_duration "PT5M30S" = 330 ∧ parse_duration "PT1H30M" = 5400
    ∧ parse_duration "PT45S" = 45 ∧ parse_duration "PT2H" = 7200
    ∧ parse_duration "invalid" = 0 ∧ parse_duration "" = 0
    ∧ parse_duration "PT1H2xM3S" = 0
    ∧ (∀ s : String, startsWithPT s = false → parse_duration s = 0) := by
  refine ⟨by decide, by decide, by decide, by decide, by decide, by decide,
    by decide, ?_⟩
  intro s h
  simp [parse_duration, parseDurationCore, h]

/-- Witness for `parse_duration_spec`: its prefix clause applied at a
concrete non-`PT` string. -/
theorem parse_duration_spec_witness : parse_duration "nope" = 0 :=
  parse_duration_spec.2.2.2.2.2.2.2 "nope" (by decide)

/-- C1: the filter pipeline returns exactly the videos for which none of
the five exclusion predicates (excluded channel; duration out of range;
too few views; too old, with unknown age passing; disliked keyword as a
case-insensitive substring of title or description) holds, as an
order-preserving subsequence of the input; the embedding is a pure
function, so the inputs are untouched. -/
theorem filter_pipeline_spec :
    ∀ (ageOf : String → Option ℚ) (videos : List Video)
      (preferences : Prefs),
      applyPreferenceFilters ageOf videos preferences
        = videos.filter (fun v =>
            !(decide (v.channel ∈ preferences.exclude_channels)
              || decide (parse_duration v.duration < preferences.min_duration)
              || decide (parse_duration v.duration > preferences.max_duration)
              || decide (v.view_count < preferences.min_views)
              || isVideoTooOld ageOf v.published_at preferences.max_age_days
              || hasDislikedKeyword preferences.disliked_keywords v.title
                  v.description))
      ∧ List.Sublist (applyPreferenceFilters ageOf videos preferences)
          videos := by
  intro ageOf videos preferences
  have hEq : applyPreferenceFilters ageOf videos preferences
      = videos.filter (fun v =>
          !(decide (v.channel ∈ preferences.exclude_channels)
            || decide (parse_duration v.duration < preferences.min_duration)
            || decide (parse_duration v.duration > preferences.max_duration)
            || decide (v.view_count < preferences.min_views)
            || isVideoTooOld ageOf v.published_at preferences.max_age_days
            || hasDislikedKeyword preferences.disliked_keywords v.title
                v.description)) := by
    induction videos with
    | nil => rfl
    | cons v rest ih =>
      by_cases h1 : v.channel ∈ preferences.exclude_channels
      · simp [applyPreferenceFilters, h1, ih]
      · by_cases h2 : parse_duration v.duration < preferences.min_duration
          ∨ parse_duration v.duration > preferences.max_duration
        · rcases h2 with h2 | h2 <;>
            simp [applyPreferenceFilters, h1, h2, ih]
        · push_neg at h2
          by_cases h3 : v.view_count < preferences.min_views
          · simp [applyPreferenceFilters, h1, h2.1, h2.2, h3, ih,
              not_lt.mpr h2.1, not_lt.mpr h2.2]
          · by_cases h4 : isVideoTooOld ageOf v.published_at
              preferences.max_age_days
            · simp [applyPreferenceFilters, h1, h3, h4, ih,
                not_lt.mpr h2.1, not_lt.mpr h2.2]
            · by_cases h5 : hasDislikedKeyword preferences.disliked_keywords
                v.title v.description
              · simp [applyPreferenceFilters, h1, h3, h4, h5, ih,
                  not_lt.mpr h2.1, not_lt.mpr h2.2]
              · simp [applyPreferenceFilters, h1, h3, h4, h5, ih,
                  not_lt.mpr h2.1, not_lt.mpr h2.2]
  exact ⟨hEq, hEq ▸ List.filter_sublist _⟩

lemma insertScored_perm (s : Video → ℚ) (v : Video) (l : List Video) :
    List.Perm (insertScored s v l) (v :: l) := by
  induction l with
  | nil => simp [insertScored]
  | cons h t ih =>
    by_cases hc : s v < s h
    · simp only [insertScored, if_pos hc]
      exact (ih.cons h).trans (List.Perm.swap v h t)
    · simp [insertScored, hc]

lemma insertScored_pairwise (s : Video → ℚ) (v : Video) (l : List Video)
    (hp : List.Pairwise (fun a b => s b ≤ s a) l) :
    List.Pairwise (fun a b => s b ≤ s a) (insertScored s v l) := by
  induction l with
  | nil => simp [insertScored]
  | cons h t ih =>
    rw [List.pairwise_cons] at hp
    by_cases hc : s v < s h
    · simp only [insertScored, if_pos hc, List.pairwise_cons]
      refine ⟨fun x hx => ?_, ih hp.2⟩
      rcases List.mem_cons.mp ((insertScored_perm s v t).mem_iff.mp hx) with
        rfl | hx
      · exact hc.le
      · exact hp.1 x hx
    · push_neg at hc
      simp only [insertScored, if_neg (not_lt.mpr hc), List.pairwise_cons]
      refine ⟨fun x hx => ?_, hp⟩
      rcases List.mem_cons.mp hx with rfl | hx
      · exact hc
      · exact (hp.1 x hx).trans hc

lemma insertScored_filter (s : Video → ℚ) (c : ℚ) (v : Video)
    (l : List Video) :
    (insertScored s v l).filter (fun x => decide (s x = c))
      = (v :: l).filter (fun x => decide (s x = c)) := by
  induction l with
  | nil => rfl
  | cons h t ih =>
    by_cases hc : s v < s h
    · rw [show insertScored s v (h :: t) = h :: insertScored s v t by
        simp [insertScored, hc]]
      by_cases pv : s v = c <;> by_cases ph : s h = c
      · exact absurd (pv.trans ph.symm) (ne_of_lt hc)
      · simp [List.filter_cons, pv, ph, ih]
      · simp [List.filter_cons, pv, ph, ih]
      · simp [List.filter_cons, pv, ph, ih]
    · simp [insertScored, hc]

lemma sortByScoreDesc_filter (s : Video → ℚ) (c : ℚ) (l : List Video) :
    (sortByScoreDesc s l).filter (fun x => decide (s x = c))
      = l.filter (fun x => decide (s x = c)) := by
  induction l with
  | nil => rfl
  | cons v rest ih =>
    rw [sortByScoreDesc, insertScored_filter]
    simp [List.filter_cons, ih]

lemma sortByScoreDesc_perm (s : Video → ℚ) (l : List Video) :
    List.Perm (sortByScoreDesc s l) l := by
  induction l with
  | nil => rfl
  | cons v rest ih =>
    exact (insertScored_perm s v (sortByScoreDesc s rest)).trans (ih.cons v)

lemma sortByScoreDesc_pairwise (s : Video → ℚ) (l : List Video) :
    List.Pairwise (fun a b => s b ≤ s a) (sortByScoreDesc s l) := by
  induction l with
  | nil => simp [sortByScoreDesc]
  | cons v rest ih => exact insertScored_pairwise s v _ ih

/-- C8: `_rank_by_preferences` is a stable descending sort: its output is
a permutation of the input, pairwise descending in score, and for every
score value the videos attaining it keep exactly their input order (so
any two equal-scored videos keep their relative order). -/
theorem rank_stability_spec :
    ∀ (scoreFn : Video → Prefs → String → ℚ) (videos : List Video)
      (preferences : Prefs) (query : String),
      (∀ c : ℚ,
        (rankByPreferences scoreFn videos preferences query).filter
            (fun v => decide (scoreFn v preferences query = c))
          = videos.filter (fun v => decide (scoreFn v preferences query = c)))
      ∧ List.Perm (rankByPreferences scoreFn videos preferences query) videos
      ∧ List.Pairwise
          (fun a b =>
            scoreFn b preferences query ≤ scoreFn a preferences query)
          (rankByPreferences scoreFn videos preferences query) := by
  intro scoreFn videos preferences query
  exact ⟨fun c => sortByScoreDesc_filter _ c videos,
    sortByScoreDesc_perm _ videos,
    sortByScoreDesc_pairwise _ videos⟩

@[simp] lemma learnChannelRule_categories (v : Video) (a : String) (p : Prefs) :
    (learnChannelRule v a p).preferred_categories = p.preferred_categories := by
  unfold learnChannelRule; split_ifs <;> rfl

@[simp] lemma learnChannelRule_min (v : Video) (a : String) (p : Prefs) :
    (learnChannelRule v a p).min_duration = p.min_duration := by
  unfold learnChannelRule; split_ifs <;> rfl

@[simp] lemma learnChannelRule_max (v : Video) (a : String) (p : Prefs) :
    (learnChannelRule v a p).max_duration = p.max_duration := by
  unfold learnChannelRule; split_ifs <;> rfl

@[simp] lemma learnChannelRule_keywords (v : Video) (a : String) (p : Prefs) :
    (learnChannelRule v a p).preferred_keywords = p.preferred_keywords := by
  unfold learnChannelRule; split_ifs <;> rfl

@[simp] lemma learnCategoryRule_channels (v : Video) (a : String) (p : Prefs) :
    (learnCategoryRule v a p).preferred_channels = p.preferred_channels := by
  unfold learnCategoryRule; split_ifs <;> rfl

@[simp] lemma learnCategoryRule_min (v : Video) (a : String) (p : Prefs) :
    (learnCategoryRule v a p).min_duration = p.min_duration := by
  unfold learnCategoryRule; split_ifs <;> rfl

@[simp] lemma learnCategoryRule_max (v : Video) (a : String) (p : Prefs) :
    (learnCategoryRule v a p).max_duration = p.max_duration := by
  unfold learnCategoryRule; split_ifs <;> rfl

@[simp] lemma learnCategoryRule_keywords (v : Video) (a : String) (p : Prefs) :
    (learnCategoryRule v a p).preferred_keywords = p.preferred_keywords := by
  unfold learnCategoryRule; split_ifs <;> rfl

@[simp] lemma learnDurationRule_channels (v : Video) (a : String) (p : Prefs) :
    (learnDurationRule v a p).preferred_channels = p.preferred_channels := by
  unfold learnDurationRule; dsimp only; split_ifs <;> rfl

@[simp] lemma learnDurationRule_keywords (v : Video) (a : String) (p : Prefs) :
    (learnDurationRule v a p).preferred_keywords = p.preferred_keywords := by
  unfold learnDurationRule; dsimp only; split_ifs <;> rfl

@[simp] lemma learnKeywordRule_channels (v : Video) (a : String) (p : Prefs) :
    (learnKeywordRule v a p).preferred_channels = p.preferred_channels := by
  unfold learnKeywordRule; split_ifs <;> rfl

@[simp] lemma learnKeywordRule_min (v : Video) (a : String) (p : Prefs) :
    (learnKeywordRule v a p).min_duration = p.min_duration := by
  unfold learnKeywordRule; split_ifs <;> rfl

@[simp] lemma learnKeywordRule_max (v : Video) (a : String) (p : Prefs) :
    (learnKeywordRule v a p).max_duration = p.max_duration := by
  unfold learnKeywordRule; split_ifs <;> rfl

lemma learnFromInteraction_channels (p : Prefs) (v : Video) (a : String) :
    (learnFromInteraction p v a).preferred_channels
      = (learnChannelRule v a p).preferred_channels := by
  unfold learnFromInteraction; simp

lemma learnChannelRule_mem (v : Video) (a : String) (p : Prefs)
    (h : v.channel ∈ p.preferred_channels) : learnChannelRule v a p = p := by
  unfold learnChannelRule
  by_cases h1 : v.channel ≠ "" ∧ a ∈ ["clicked", "liked", "watched"]
  · rw [if_pos h1, if_neg (not_not_intro h)]
  · rw [if_neg h1]

/-- C9: when the video's channel is already preferred, no learn call
changes `preferred_channels` at all (in particular the channel is not
moved to the most-recent position). -/
theorem learn_member_channel_unchanged :
    ∀ (p : Prefs) (v : Video) (a : String),
      v.channel ∈ p.preferred_channels →
      (learnFromInteraction p v a).preferred_channels
        = p.preferred_channels := by
  intro p v a h
  rw [learnFromInteraction_channels, learnChannelRule_mem v a p h]

/-- Witness for `learn_member_channel_unchanged` at a concrete state. -/
theorem learn_member_channel_unchanged_witness :
    (learnFromInteraction
        { defaultPreferences with preferred_channels := ["chan"] }
        { channel := "chan" } "clicked").preferred_channels = ["chan"] :=
  learn_member_channel_unchanged
    { defaultPreferences with preferred_channels := ["chan"] }
    { channel := "chan" } "clicked" (by decide)

lemma learnChannelRule_length_le (v : Video) (a : String) (p : Prefs)
    (h : p.preferred_channels.length ≤ 50) :
    (learnChannelRule v a p).preferred_channels.length ≤ 50 := by
  unfold learnChannelRule
  dsimp only
  split_ifs with h1 h2 h3 <;>
    simp only [List.length_drop, List.length_append,
      List.length_singleton] at * <;>
    omega

lemma learnFromInteraction_channels_length_le (p : Prefs) (v : Video)
    (a : String) (h : p.preferred_channels.length ≤ 50) :
    (learnFromInteraction p v a).preferred_channels.length ≤ 50 := by
  rw [learnFromInteraction_channels]
  exact learnChannelRule_length_le v a p h

lemma foldl_learn_channels_length_le (events : List (Video × String)) :
    ∀ p : Prefs, p.preferred_channels.length ≤ 50 →
    ((events.foldl (fun q e => learnFromInteraction q e.1 e.2)
        p).preferred_channels).length ≤ 50 := by
  induction events with
  | nil => intro p h; exact h
  | cons e es ih =>
    intro p h
    exact ih _ (learnFromInteraction_channels_length_le p e.1 e.2 h)

/-- Channel names used in the 60-distinct-channels experiment. -/
def chanName (i : Nat) : String := "c" ++ toString i

/-- Sixty videos on sixty distinct channels (all other fields default). -/
def sixtyChannelVideos : List Video :=
  (List.range 60).map (fun i => { channel := chanName i })

set_option maxRecDepth 40000 in
/-- C6: a learn call never grows `preferred_channels` past 50 (from any
state already within the cap, hence from the defaults along any event
sequence), and learning `clicked` on 60 distinct channels starting from
the defaults leaves exactly the 50 most recently added channels. -/
theorem channel_cap_spec :
    (∀ (p : Prefs) (v : Video) (a : String),
        p.preferred_channels.length ≤ 50 →
        (learnFromInteraction p v a).preferred_channels.length ≤ 50)
    ∧ (∀ events : List (Video × String),
        ((events.foldl (fun q e => learnFromInteraction q e.1 e.2)
            defaultPreferences).preferred_channels).length ≤ 50)
    ∧ (sixtyChannelVideos.foldl
          (fun q v => learnFromInteraction q v "clicked")
          defaultPreferences).preferred_channels
        = ((List.range 60).drop 10).map chanName := by
  refine ⟨learnFromInteraction_channels_length_le,
    fun events => foldl_learn_channels_length_le events defaultPreferences
      (by decide), ?_⟩
  decide

/-- Witness for `channel_cap_spec`: the cap clause applied at a concrete
state. -/
theorem channel_cap_spec_witness :
    (learnFromInteraction defaultPreferences { channel := "x" }
        "clicked").preferred_channels.length ≤ 50 :=
  channel_cap_spec.1 defaultPreferences { channel := "x" } "clicked"
    (by decide)

lemma learnDurationRule_spec (v : Video) (a : String) (q : Prefs)
    (ha : a ∈ ["watched", "liked"]) (hd : 0 < parse_duration v.duration) :
    (learnDurationRule v a q).min_duration
        = (if parse_duration v.duration < q.min_duration
           then max 0 (q.min_duration - 60) else q.min_duration)
    ∧ (learnDurationRule v a q).max_duration
        = (if parse_duration v.duration > q.max_duration
           then min 14400 (q.max_duration + 300) else q.max_duration) := by
  unfold learnDurationRule
  dsimp only
  rw [if_pos ⟨hd, ha⟩]
  constructor <;> split_ifs <;> rfl

lemma learnDurationRule_min_nonneg (v : Video) (a : String) (q : Prefs)
    (h : 0 ≤ q.min_duration) : 0 ≤ (learnDurationRule v a q).min_duration := by
  unfold learnDurationRule
  dsimp only
  split_ifs <;> simp [h, le_max_left]

lemma learnDurationRule_max_le (v : Video) (a : String) (q : Prefs)
    (h : q.max_duration ≤ 14400) :
    (learnDurationRule v a q).max_duration ≤ 14400 := by
  unfold learnDurationRule
  dsimp only
  split_ifs <;> simp [h, min_le_left]

lemma learnFromInteraction_min (p : Prefs) (v : Video) (a : String) :
    (learnFromInteraction p v a).min_duration
      = (learnDurationRule v a
          (learnCategoryRule v a (learnChannelRule v a p))).min_duration := by
  unfold learnFromInteraction; simp

lemma learnFromInteraction_max (p : Prefs) (v : Video) (a : String) :
    (learnFromInteraction p v a).max_duration
      = (learnDurationRule v a
          (learnCategoryRule v a (learnChannelRule v a p))).max_duration := by
  unfold learnFromInteraction; simp

lemma learn_duration_invariant (p : Prefs) (v : Video) (a : String)
    (h : 0 ≤ p.min_duration ∧ p.max_duration ≤ 14400) :
    0 ≤ (learnFromInteraction p v a).min_duration
    ∧ (learnFromInteraction p v a).max_duration ≤ 14400 := by
  rw [learnFromInteraction_min, learnFromInteraction_max]
  constructor
  · exact learnDurationRule_min_nonneg v a _ (by simp [h.1])
  · exact learnDurationRule_max_le v a _ (by simp [h.2])

lemma foldl_learn_duration_invariant (events : List (Video × String)) :
    ∀ p : Prefs, 0 ≤ p.min_duration ∧ p.max_duration ≤ 14400 →
    0 ≤ ((events.foldl (fun q e => learnFromInteraction q e.1 e.2)
        p).min_duration)
    ∧ ((events.foldl (fun q e => learnFromInteraction q e.1 e.2)
        p).max_duration) ≤ 14400 := by
  induction events with
  | nil => intro p h; exact h
  | cons e es ih =>
    intro p h
    exact ih _ (learn_duration_invariant p e.1 e.2 h)

/-- C7: a `watched`/`liked` learn event with positive parsed duration
moves each duration bound by at most one step — `min_duration` down by 60
(floored at 0) exactly when the duration is below it, `max_duration` up
by 300 (capped at 14400) exactly when the duration is above it — and
along any event sequence from the defaults `min_duration` stays ≥ 0 and
`max_duration` stays ≤ 14400. -/
theorem duration_drift_spec :
    (∀ (p : Prefs) (v : Video) (a : String),
        a ∈ ["watched", "liked"] → 0 < parse_duration v.duration →
        (learnFromInteraction p v a).min_duration
            = (if parse_duration v.duration < p.min_duration
               then max 0 (p.min_duration - 60) else p.min_duration)
        ∧ (learnFromInteraction p v a).max_duration
            = (if parse_duration v.duration > p.max_duration
               then min 14400 (p.max_duration + 300) else p.max_duration))
    ∧ (∀ events : List (Video × String),
        0 ≤ ((events.foldl (fun q e => learnFromInteraction q e.1 e.2)
            defaultPreferences).min_duration)
        ∧ ((events.foldl (fun q e => learnFromInteraction q e.1 e.2)
            defaultPreferences).max_duration) ≤ 14400) := by
  constructor
  · intro p v a ha hd
    rw [learnFromInteraction_min, learnFromInteraction_max]
    have h := learnDurationRule_spec v a
      (learnCategoryRule v a (learnChannelRule v a p)) ha hd
    simpa using h
  · intro events
    exact foldl_learn_duration_invariant events defaultPreferences
      (by constructor <;> decide)

/-- Witness for `duration_drift_spec`: a 30-second watched video against
`min_duration = 100` drops the bound to 40 and leaves `max_duration`
alone. -/
theorem duration_drift_spec_witness :
    (learnFromInteraction { defaultPreferences with min_duration := 100 }
        { duration := "PT30S" } "watched").min_duration = 40
    ∧ (learnFromInteraction { defaultPreferences with min_duration := 100 }
        { duration := "PT30S" } "watched").max_duration = 7200 := by
  obtain ⟨h1, h2⟩ := duration_drift_spec.1
    { defaultPreferences with min_duration := 100 }
    { duration := "PT30S" } "watched" (by decide) (by decide)
  refine ⟨?_, ?_⟩
  · rw [h1]; decide
  · rw [h2]; decide

lemma learnKeywordRule_keywords_eq (v : Video) (a : String) (q : Prefs) :
    (learnKeywordRule v a q).preferred_keywords
      = if lowerStr v.title ≠ "" ∧ a ∈ ["clicked", "liked"]
        then (keywordTokens v.title).foldl addKeyword q.preferred_keywords
        else q.preferred_keywords := by
  unfold learnKeywordRule; split_ifs <;> rfl

lemma learnFromInteraction_keywords (p : Prefs) (v : Video) (a : String) :
    (learnFromInteraction p v a).preferred_keywords
      = if lowerStr v.title ≠ "" ∧ a ∈ ["clicked", "liked"]
        then (keywordTokens v.title).foldl addKeyword p.preferred_keywords
        else p.preferred_keywords := by
  unfold learnFromInteraction
  rw [learnKeywordRule_keywords_eq]
  simp

lemma addKeyword_extends (kws : List String) (w : String) :
    kws <+: addKeyword kws w := by
  unfold addKeyword
  split_ifs
  · exact ⟨[w], rfl⟩
  · exact List.prefix_rfl

lemma foldl_addKeyword_extends (ws : List String) :
    ∀ kws : List String, kws <+: ws.foldl addKeyword kws := by
  induction ws with
  | nil => intro kws; exact List.prefix_rfl
  | cons w ws ih =>
    intro kws
    exact (addKeyword_extends kws w).trans (ih (addKeyword kws w))

lemma addKeyword_length_le (kws : List String) (w : String) :
    (addKeyword kws w).length ≤ max kws.length 100 := by
  unfold addKeyword
  split_ifs with h
  · simp only [List.length_append, List.length_singleton]
    exact le_trans h.2.2 (le_max_right _ _)
  · exact le_max_left _ _

lemma foldl_addKeyword_length_le (ws : List String) :
    ∀ kws : List String,
      (ws.foldl addKeyword kws).length ≤ max kws.length 100 := by
  induction ws with
  | nil => intro kws; exact le_max_left _ _
  | cons w ws ih =>
    intro kws
    exact le_trans (ih (addKeyword kws w))
      (max_le (addKeyword_length_le kws w) (le_max_right _ _))

lemma addKeyword_of_full (kws : List String) (w : String)
    (h : 100 ≤ kws.length) : addKeyword kws w = kws := by
  unfold addKeyword
  rw [if_neg]
  rintro ⟨-, -, hlen⟩
  omega

lemma foldl_addKeyword_of_full (ws kws : List String)
    (h : 100 ≤ kws.length) : ws.foldl addKeyword kws = kws := by
  induction ws with
  | nil => rfl
  | cons w ws ih => rw [List.foldl_cons, addKeyword_of_full kws w h]; exact ih

lemma addKeyword_mem (kws : List String) (w x : String)
    (hx : x ∈ addKeyword kws w) : x ∈ kws ∨ (x = w ∧ w ∉ commonWords) := by
  unfold addKeyword at hx
  split_ifs at hx with h
  · rcases List.mem_append.mp hx with hx | hx
    · exact Or.inl hx
    · exact Or.inr ⟨List.mem_singleton.mp hx, h.1⟩
  · exact Or.inl hx

lemma foldl_addKeyword_mem (ws : List String) :
    ∀ (kws : List String) (x : String), x ∈ ws.foldl addKeyword kws →
      x ∈ kws ∨ (x ∈ ws ∧ x ∉ commonWords) := by
  induction ws with
  | nil => intro kws x hx; exact Or.inl hx
  | cons w ws ih =>
    intro kws x hx
    rcases ih (addKeyword kws w) x hx with hx' | ⟨hxs, hxc⟩
    · rcases addKeyword_mem kws w x hx' with h | ⟨rfl, hc⟩
      · exact Or.inl h
      · exact Or.inr ⟨List.mem_cons_self _ _, hc⟩
    · exact Or.inr ⟨List.mem_cons_of_mem _ hxs, hxc⟩

/-- C5 counterexample: the claim requires kept tokens to have length > 3
AFTER stripping, but the source tests `len(word) > 3` on the raw token
before `strip('.,!?()[]')`: learning `clicked` on title `"Dog."` appends
the keyword `"dog"`, whose length is only 3. -/
theorem keyword_extraction_counterexample :
    (learnFromInteraction defaultPreferences { title := "Dog." }
        "clicked").preferred_keywords = ["dog"]
    ∧ String.length "dog" = 3 :=
  ⟨by decide, by decide⟩

/-- C5 (amended): on a `clicked`/`liked` learn call with non-empty title,
keyword extraction appends only tokens obtained by lowercasing the title,
splitting on whitespace, keeping tokens whose RAW length (before
stripping) exceeds 3, stripping surrounding `.,!?()[]`, and dropping
stop words; existing keywords are preserved as a prefix (append-only),
the list never grows past 100, and a full list is never changed. -/
theorem keyword_extraction_spec :
    ∀ (p : Prefs) (v : Video) (a : String),
      p.preferred_keywords <+:
        (learnFromInteraction p v a).preferred_keywords
      ∧ (learnFromInteraction p v a).preferred_keywords.length
          ≤ max p.preferred_keywords.length 100
      ∧ (100 ≤ p.preferred_keywords.length →
          (learnFromInteraction p v a).preferred_keywords
            = p.preferred_keywords)
      ∧ (∀ w ∈ (learnFromInteraction p v a).preferred_keywords,
          w ∈ p.preferred_keywords
          ∨ (a ∈ ["clicked", "liked"] ∧ w ∉ commonWords
             ∧ ∃ t ∈ splitWs (lowerStr v.title),
                 3 < t.length ∧ w = stripPunct t)) := by
  intro p v a
  simp only [learnFromInteraction_keywords]
  split_ifs with hc
  · refine ⟨foldl_addKeyword_extends _ _, foldl_addKeyword_length_le _ _,
      fun h => foldl_addKeyword_of_full _ _ h, ?_⟩
    intro w hw
    rcases foldl_addKeyword_mem _ _ w hw with h | ⟨hws, hwc⟩
    · exact Or.inl h
    · refine Or.inr ⟨hc.2, hwc, ?_⟩
      unfold keywordTokens at hws
      rcases List.mem_map.mp hws with ⟨t, ht, rfl⟩
      rcases List.mem_filter.mp ht with ⟨ht1, ht2⟩
      exact ⟨t, ht1, by simpa using ht2, rfl⟩
  · exact ⟨List.prefix_rfl, le_max_left _ _, fun _ => rfl,
      fun w hw => Or.inl hw⟩

/-- One hundred distinct keywords, for the cap witness. -/
def kw100 : List String := (List.range 100).map (fun i => "k" ++ toString i)

/-- Witness for `keyword_extraction_spec`: its full-list clause applied at
a 100-keyword state. -/
theorem keyword_extraction_spec_witness :
    (learnFromInteraction
        { defaultPreferences with preferred_keywords := kw100 }
        { title := "Verification Rocks" } "clicked").preferred_keywords
      = kw100 :=
  (keyword_extraction_spec
      { defaultPreferences with preferred_keywords := kw100 }
      { title := "Verification Rocks" } "clicked").2.2.1
    (by simp [kw100])

lemma recordSearchImpl_ok {ε : Type} (cfg : EngineCfg ε) (q : String)
    (n : Nat) : recordSearchImpl cfg q n = .ok () := by
  unfold recordSearchImpl
  cases cfg.searchLogDb q n <;> rfl

/-- C3 counterexample: `record_interaction` does NOT propagate a store
failure — with the interaction insert raising, the call still returns
normally (the `except` branch only logs). -/
theorem error_propagation_counterexample :
    recordInteractionE (Except.error () : Except Unit Unit)
        (Except.ok ()) "clicked" = Except.ok ()
    ∧ (Except.ok () : Except Unit Unit) ≠ Except.error () :=
  ⟨rfl, fun h => Except.noConfusion h⟩

/-- C3 (amended): during `search`, a failure of the external video source
propagates unchanged to the caller, and the preference store cannot make
`search` fail (`get_preferences` falls back to the defaults and
`record_search` swallows its own failures); during a learn call,
`record_interaction` catches every collaborator failure (both the
interaction insert and the preference write-back) and returns normally,
never propagating. -/
theorem error_propagation_spec :
    (∀ (ε : Type) (cfg : EngineCfg ε) (q : String) (m : Nat) (e : ε),
        cfg.sourceFn q (min (2 * m) 50) = .error e →
        searchE cfg q m = .error e)
    ∧ (∀ (ε : Type) (cfg : EngineCfg ε) (q : String) (m : Nat)
        (raw : List Video),
        cfg.sourceFn q (min (2 * m) 50) = .ok raw →
        ∃ res, searchE cfg q m = .ok res)
    ∧ (∀ (ε : Type) (idb udb : Except ε Unit) (a : String),
        recordInteractionE idb udb a = .ok ()) := by
  refine ⟨?_, ?_, ?_⟩
  · intro ε cfg q m e h
    unfold searchE
    rw [h]
    rfl
  · intro ε cfg q m raw h
    refine ⟨(rankByPreferences cfg.scoreFn
        (applyPreferenceFilters cfg.ageOf raw (getPreferencesImpl cfg))
        (getPreferencesImpl cfg) q).take m, ?_⟩
    unfold searchE
    rw [h]
    show (do
      let _ ← recordSearchImpl cfg q _
      pure _ : Except ε (List Video)) = _
    rw [recordSearchImpl_ok]
    rfl
  · intro ε idb udb a
    unfold recordInteractionE
    split <;> rfl

/-- A configuration whose video source always raises, for the witness. -/
def failCfg : EngineCfg Unit where
  sourceFn := fun _ _ => .error ()
  prefsDb := .ok defaultPreferences
  searchLogDb := fun _ _ => .ok ()
  scoreFn := fun _ _ _ => 0
  ageOf := fun _ => none

/-- Witness for `error_propagation_spec`: the source-failure clause at a
concrete configuration. -/
theorem error_propagation_spec_witness :
    searchE failCfg "query" 5 = .error () :=
  error_propagation_spec.1 Unit failCfg "query" 5 () rfl

lemma runQueries_error_of_mem {ε : Type} (f : String → Except ε (List Video))
    (qs : List String) (q : String) (e : ε) (hq : q ∈ qs)
    (hf : f q = .error e) : ∃ e', runQueries f qs = .error e' := by
  induction qs with
  | nil => cases hq
  | cons h t ih =>
    rcases List.mem_cons.mp hq with rfl | hq'
    · exact ⟨e, by simp [runQueries, hf]⟩
    · cases hfh : f h with
      | error e2 => exact ⟨e2, by simp [runQueries, hfh]⟩
      | ok r =>
        obtain ⟨e', he'⟩ := ih hq'
        exact ⟨e', by simp [runQueries, hfh, he']⟩

lemma collectLoop_all_error {ε : Type} (f : String → Except ε (List Video))
    (qs : List String) (h : ∀ q ∈ qs, ∃ e, f q = Except.error e) :
    ∀ acc, collectLoop f acc qs = acc := by
  induction qs with
  | nil => intro acc; rfl
  | cons q t ih =>
    intro acc
    obtain ⟨e, he⟩ := h q (List.mem_cons_self q t)
    simp only [collectLoop, he]
    exact ih (fun x hx => h x (List.mem_cons_of_mem q hx)) acc

lemma collectLoop_congr {ε : Type} (f g : String → Except ε (List Video))
    (qs : List String)
    (h : ∀ q ∈ qs, f q = g q
      ∨ ((∃ e, f q = Except.error e) ∧ g q = Except.ok [])) :
    ∀ acc, collectLoop f acc qs = collectLoop g acc qs := by
  induction qs with
  | nil => intro acc; rfl
  | cons q t ih =>
    intro acc
    have ht := fun x hx => h x (List.mem_cons_of_mem q hx)
    rcases h q (List.mem_cons_self q t) with heq | ⟨⟨e, hfe⟩, hge⟩
    · cases hgq : g q with
      | error e2 => simp only [collectLoop, heq, hgq]; exact ih ht acc
      | ok r => simp only [collectLoop, heq, hgq]; exact ih ht (acc ++ r)
    · simp only [collectLoop, hfe, hge, List.append_nil]
      exact ih ht acc

/-- A configuration where only the first trending query succeeds. -/
def partialFailCfg : EngineCfg Unit where
  sourceFn := fun q _ =>
    if q = "trending today" then .ok [{ video_id := "v1", title := "first" }]
    else .error ()
  prefsDb := .ok defaultPreferences
  searchLogDb := fun _ _ => .ok ()
  scoreFn := fun _ _ _ => 0
  ageOf := fun _ => none

/-- C4 counterexample: in `get_trending_personalized` a single failing
constituent query aborts the whole operation — the first query succeeds
with a video, the second raises, and the result is `[]`, discarding the
first query's results instead of continuing. -/
theorem aggregate_failure_counterexample :
    searchE partialFailCfg "trending today" 2
        = .ok [{ video_id := "v1", title := "first" }]
    ∧ searchE partialFailCfg "popular videos" 2 = .error ()
    ∧ getTrending partialFailCfg 8 = [] :=
  ⟨rfl, rfl, rfl⟩

/-- C4 (amended): only `get_recommendations` skips a failing constituent
query and continues (a failing query is indistinguishable from one
returning no results, and it yields `[]` — not an error — when every
query fails); `get_trending_personalized` instead aborts on the first
failing constituent query and returns `[]` (not an error), discarding any
earlier successes. -/
theorem aggregate_failure_spec :
    (∀ (ε : Type) (cfg : EngineCfg ε) (m : Nat) (q : String) (e : ε),
        q ∈ trendingQueries →
        searchE cfg q (m / trendingQueries.length) = .error e →
        getTrending cfg m = [])
    ∧ (∀ (ε : Type) (cfg : EngineCfg ε) (m : Nat),
        (∀ q ∈ recQueries (getPreferencesImpl cfg), ∃ e,
          searchE cfg q (recPerQuery (getPreferencesImpl cfg) m)
            = Except.error e) →
        getRecommendations cfg m = [])
    ∧ (∀ (ε : Type) (cfg cfg' : EngineCfg ε) (m : Nat),
        cfg.prefsDb = cfg'.prefsDb →
        (∀ q n, searchE cfg q n = searchE cfg' q n
          ∨ ((∃ e, searchE cfg q n = Except.error e)
             ∧ searchE cfg' q n = Except.ok [])) →
        getRecommendations cfg m = getRecommendations cfg' m) := by
  refine ⟨?_, ?_, ?_⟩
  · intro ε cfg m q e hq hf
    obtain ⟨e', he'⟩ := runQueries_error_of_mem
      (fun q' => searchE cfg q' (m / trendingQueries.length))
      trendingQueries q e hq hf
    unfold getTrending
    rw [he']
  · intro ε cfg m h
    unfold getRecommendations
    dsimp only
    rw [collectLoop_all_error _ _ h []]
    simp [dedupeById]
  · intro ε cfg cfg' m hdb h
    have hp : getPreferencesImpl cfg = getPreferencesImpl cfg' := by
      unfold getPreferencesImpl; rw [hdb]
    unfold getRecommendations
    dsimp only
    rw [hp, collectLoop_congr _ _ _
      (fun q _ => h q (recPerQuery (getPreferencesImpl cfg') m)) []]

/-- Witness for `aggregate_failure_spec`: its trending clause at the
concrete partially-failing configuration. -/
theorem aggregate_failure_spec_witness :
    getTrending partialFailCfg 8 = [] :=
  aggregate_failure_spec.1 Unit partialFailCfg 8 "popular videos" ()
    (by decide) rfl

lemma searchE_zero {ε : Type} (cfg : EngineCfg ε) (q : String) :
    searchE cfg q 0 = .ok [] ∨ ∃ e, searchE cfg q 0 = .error e := by
  cases hs : cfg.sourceFn q (min (2 * 0) 50) with
  | error e => exact Or.inr ⟨e, by unfold searchE; rw [hs]; rfl⟩
  | ok raw =>
    left
    unfold searchE
    rw [hs]
    show (do
      let _ ← recordSearchImpl cfg q _
      pure _ : Except ε (List Video)) = _
    rw [recordSearchImpl_ok]
    rfl

/-- C10: with `max_results < 4`, every constituent trending query runs at
`max_results // 4 = 0` results, each such search truncates to `[]` (or
raises, which the outer handler turns into `[]`), so
`get_trending_personalized` returns `[]` whatever the external source
does. -/
theorem trending_small_max_results_spec :
    ∀ (ε : Type) (cfg : EngineCfg ε) (m : Nat),
      m < 4 → getTrending cfg m = [] := by
  intro ε cfg m hm
  have hq : m / trendingQueries.length = 0 := by
    simp only [trendingQueries, List.length_cons, List.length_nil]
    omega
  unfold getTrending
  rw [hq]
  rcases searchE_zero cfg "trending today" with h1 | ⟨e1, h1⟩ <;>
    rcases searchE_zero cfg "popular videos" with h2 | ⟨e2, h2⟩ <;>
    rcases searchE_zero cfg "viral videos" with h3 | ⟨e3, h3⟩ <;>
    rcases searchE_zero cfg "latest trending" with h4 | ⟨e4, h4⟩ <;>
    simp [trendingQueries, runQueries, h1, h2, h3, h4, dedupeById]

/-- A configuration whose source always returns a video, showing the
result is empty regardless of the source. -/
def demoCfg : EngineCfg Unit where
  sourceFn := fun _ _ => .ok [{ video_id := "v1", title := "first" }]
  prefsDb := .ok defaultPreferences
  searchLogDb := fun _ _ => .ok ()
  scoreFn := fun _ _ _ => 0
  ageOf := fun _ => none

/-- Witness for `trending_small_max_results_spec` at `max_results = 3`
against a source that always returns a video. -/
theorem trending_small_max_results_spec_witness :
    getTrending demoCfg 3 = [] :=
  trending_small_max_results_spec Unit demoCfg 3 (by decide)
